import Mathlib

/-!
Verification of the signal-orchestration and consensus-aggregation engine
(`backend/llm_service`): the weighted-voting aggregator
(`consensus/aggregator.py`), the multi-provider orchestrator
(`multi_provider_orchestrator.py`), the provider registry
(`providers/registry.py`) and the provider base types (`providers/base.py`).

Python floats are modelled as exact rationals (`ℚ`), Python `None` as
`Option`, decisions and risk levels as `String` (the source stores them as
strings and can raise `KeyError` on unexpected decisions), and raising
code as `Except`.
-/

/-- Python truthiness of an `Optional[float]` field: `None` and `0.0` are
falsy (the source filters fields with `if r.field`). -/
def truthyQ : Option ℚ → Bool
  | none => false
  | some x => decide (x ≠ 0)

/-- Python truthiness of an `Optional[str]` field: `None` and `""` are falsy. -/
def truthyS : Option String → Bool
  | none => false
  | some s => decide (s ≠ "")

/-- Python truthiness of an `Optional[int]` field: `None` and `0` are falsy. -/
def truthyN : Option ℕ → Bool
  | none => false
  | some n => decide (n ≠ 0)

/-- `ProviderResponse` from `providers/base.py` (the fields consumed by the
aggregator; `model`, `raw_response`, `timestamp` and `metadata` carry no
aggregation logic, `model` is kept as representative pass-through data). -/
structure ProviderResponse where
  provider_name : String
  model : String
  decision : String
  confidence : ℚ
  reasoning : String
  risk_level : Option String := none
  suggested_stop_loss : Option ℚ := none
  suggested_take_profit : Option ℚ := none
  latency_ms : Option ℚ := none
  tokens_used : Option ℕ := none
  cost_usd : Option ℚ := none
deriving DecidableEq

/-- The `weighted_votes` dictionary `\x7b"BUY": _, "SELL": _, "HOLD": _\x7d`
of `_calculate_weighted_votes`, with its fixed insertion order BUY, SELL,
HOLD. -/
structure Votes where
  buy : ℚ
  sell : ℚ
  hold : ℚ
deriving DecidableEq

/-- Dictionary lookup `weighted_votes[d]` for the three fixed keys. -/
def Votes.get (v : Votes) (d : String) : ℚ :=
  if d = "BUY" then v.buy
  else if d = "SELL" then v.sell
  else if d = "HOLD" then v.hold
  else 0

/-- `sum(weighted_votes.values())`. -/
def Votes.total (v : Votes) : ℚ := v.buy + v.sell + v.hold

/-- The exceptions `SignalAggregator.aggregate` can raise: the two
`ValueError`s of its guard clauses and the `KeyError` of
`weighted_votes[response.decision]` on a decision outside BUY/SELL/HOLD. -/
inductive AggError where
  | noResponses : AggError
  | insufficientProviders (got required : ℕ) : AggError
  | keyError (key : String) : AggError
deriving DecidableEq

/-- `vote_weight = weight * response.confidence` where
`weight = weights.get(response.provider_name, 1.0)`; the weight dictionary
with its `.get` default is modelled as a total function. -/
def vote_weight (W : String → ℚ) (r : ProviderResponse) : ℚ :=
  W r.provider_name * r.confidence

/-- One iteration of the loop in `_calculate_weighted_votes`:
`weighted_votes[response.decision] += vote_weight`, raising `KeyError` when
the decision is not a key. -/
def add_vote (W : String → ℚ) (v : Votes) (r : ProviderResponse) : Except AggError Votes :=
  if r.decision = "BUY" then .ok { v with buy := v.buy + vote_weight W r }
  else if r.decision = "SELL" then .ok { v with sell := v.sell + vote_weight W r }
  else if r.decision = "HOLD" then .ok { v with hold := v.hold + vote_weight W r }
  else .error (.keyError r.decision)

/-- The loop of `_calculate_weighted_votes` over the response list, started
from the accumulator `v` (the dict initialised to all zeros). -/
def calculate_weighted_votes_loop (W : String → ℚ) :
    List ProviderResponse → Votes → Except AggError Votes
  | [], v => .ok v
  | r :: rs, v =>
    match add_vote W v r with
    | .ok v' => calculate_weighted_votes_loop W rs v'
    | .error e => .error e

/-- `_calculate_weighted_votes(responses, weights)`. -/
def calculate_weighted_votes (W : String → ℚ) (responses : List ProviderResponse) :
    Except AggError Votes :=
  calculate_weighted_votes_loop W responses ⟨0, 0, 0⟩

/-- `_count_votes`: `dict(Counter(r.decision for r in responses))`, modelled
as the counting function of the multiset (Python dict equality ignores key
order; a missing key corresponds to count 0). -/
def count_votes (responses : List ProviderResponse) : String → ℕ :=
  fun d => responses.countP (fun r => decide (r.decision = d))

/-- `max(weighted_votes.items(), key=lambda x: x[1])[0]`: CPython `max`
iterates in the dict's insertion order BUY, SELL, HOLD and replaces the
current maximum only on a strictly greater key. -/
def winning_decision (v : Votes) : String :=
  let d2 := if v.buy < v.sell then "SELL" else "BUY"
  let x2 := if v.buy < v.sell then v.sell else v.buy
  if x2 < v.hold then "HOLD" else d2

/-- The supporter filter `[r for r in responses if r.decision == decision]`. -/
def supporters (responses : List ProviderResponse) (decision : String) :
    List ProviderResponse :=
  responses.filter (fun r => decide (r.decision = decision))

/-- `_calculate_consensus_confidence(responses, decision, weights)`. -/
def calculate_consensus_confidence (W : String → ℚ)
    (responses : List ProviderResponse) (decision : String) : ℚ :=
  let sup := supporters responses decision
  if sup.isEmpty then 0
  else
    let total_weight := (sup.map (fun r => W r.provider_name)).sum
    let weighted_sum := (sup.map (fun r => r.confidence * W r.provider_name)).sum
    let base_confidence := if 0 < total_weight then weighted_sum / total_weight else 0
    let agreement_factor : ℚ := (sup.length : ℚ) / (responses.length : ℚ)
    min 1 (max 0 (base_confidence * (7/10 + 3/10 * agreement_factor)))

/-- `_calculate_agreement_score(responses, decision, weighted_votes)`. -/
def calculate_agreement_score (v : Votes) (decision : String) : ℚ :=
  if v.total = 0 then 0 else v.get decision / v.total

/-- CPython `max(xs, key=f)` for a nonempty list: keeps the first element
attaining the maximal key (replaces only on strictly greater). -/
def firstMaxBy {α β : Type _} [LinearOrder β] (f : α → β) : List α → Option α
  | [] => none
  | x :: xs => some (xs.foldl (fun cur y => if f cur < f y then y else cur) x)

/-- `_aggregate_reasoning(responses, decision)`. -/
def aggregate_reasoning (responses : List ProviderResponse) (decision : String) :
    String :=
  let sup := supporters responses decision
  match firstMaxBy (fun r => r.confidence) sup with
  | none => "No consensus reasoning available"
  | some most_confident =>
    "Consensus (" ++ toString sup.length ++ "/" ++ toString responses.length
      ++ " providers agree): " ++ most_confident.reasoning

/-- `str.lower()` on one character, for the ASCII alphabet of the risk
labels. -/
def lowerChar (c : Char) : Char :=
  if 'A' ≤ c ∧ c ≤ 'Z' then Char.ofNat (c.toNat + 32) else c

/-- `x.lower()` (ASCII case folding; the risk labels compared against are
all ASCII). -/
def lowerStr (s : String) : String := String.mk (s.data.map lowerChar)

/-- `risk_priority.get(x.lower(), 2)` with
`risk_priority = \x7b"high": 3, "medium": 2, "low": 1\x7d`. -/
def risk_priority (s : String) : ℕ :=
  if lowerStr s = "high" then 3
  else if lowerStr s = "medium" then 2
  else if lowerStr s = "low" then 1
  else 2

/-- The truthy risk levels `[r.risk_level for r in responses if r.risk_level]`. -/
def present_risk_levels (responses : List ProviderResponse) : List String :=
  (responses.filterMap (fun r => r.risk_level)).filter (fun s => decide (s ≠ ""))

/-- `_aggregate_risk_level(responses)`: highest-priority truthy risk level
(first one on priority ties), `"medium"` when none is present. -/
def aggregate_risk_level (responses : List ProviderResponse) : String :=
  match firstMaxBy risk_priority (present_risk_levels responses) with
  | none => "medium"
  | some highest_risk => highest_risk

/-- Python `sorted` on a list of floats (ascending; equal rationals are
indistinguishable, so any correct sort models it). -/
def sortQ (l : List ℚ) : List ℚ := l.insertionSort (· ≤ ·)

/-- The supporters of `decision` with a truthy `suggested_stop_loss`. -/
def stop_loss_supporters (responses : List ProviderResponse) (decision : String) :
    List ProviderResponse :=
  responses.filter (fun r => decide (r.decision = decision) && truthyQ r.suggested_stop_loss)

/-- `_aggregate_stop_loss(responses, decision)`: `sorted(...)[len(...) // 2]`
of the truthy supporter stop losses, `None` when there are none. -/
def aggregate_stop_loss (responses : List ProviderResponse) (decision : String) :
    Option ℚ :=
  let sup := stop_loss_supporters responses decision
  if sup.isEmpty then none
  else
    let stop_losses := sortQ (sup.filterMap (fun r => r.suggested_stop_loss))
    stop_losses.get? (stop_losses.length / 2)

/-- The supporters of `decision` with a truthy `suggested_take_profit`. -/
def take_profit_supporters (responses : List ProviderResponse) (decision : String) :
    List ProviderResponse :=
  responses.filter (fun r => decide (r.decision = decision) && truthyQ r.suggested_take_profit)

/-- `_aggregate_take_profit(responses, decision)`. -/
def aggregate_take_profit (responses : List ProviderResponse) (decision : String) :
    Option ℚ :=
  let sup := take_profit_supporters responses decision
  if sup.isEmpty then none
  else
    let take_profits := sortQ (sup.filterMap (fun r => r.suggested_take_profit))
    take_profits.get? (take_profits.length / 2)

/-- `sum(r.latency_ms for r in responses if r.latency_ms)`. -/
def total_latency (responses : List ProviderResponse) : ℚ :=
  (((responses.filter (fun r => truthyQ r.latency_ms)).filterMap
    (fun r => r.latency_ms)).sum)

/-- `sum(r.cost_usd for r in responses if r.cost_usd)`. -/
def total_cost (responses : List ProviderResponse) : ℚ :=
  (((responses.filter (fun r => truthyQ r.cost_usd)).filterMap
    (fun r => r.cost_usd)).sum)

/-- `sum(r.tokens_used for r in responses if r.tokens_used)`. -/
def total_tokens (responses : List ProviderResponse) : ℕ :=
  (((responses.filter (fun r => truthyN r.tokens_used)).filterMap
    (fun r => r.tokens_used)).sum)

/-- `ConsensusResult` from `consensus/aggregator.py` (the wall-clock
`timestamp` field carries no logic and is omitted; `vote_breakdown` is the
counting function of the Counter dict). -/
structure ConsensusResult where
  decision : String
  confidence : ℚ
  reasoning : String
  risk_level : String
  suggested_stop_loss : Option ℚ := none
  suggested_take_profit : Option ℚ := none
  total_providers : ℕ := 0
  participating_providers : ℕ := 0
  agreement_score : ℚ := 0
  weighted_confidence : ℚ := 0
  provider_responses : List ProviderResponse := []
  vote_breakdown : String → ℕ := fun _ => 0
  weighted_votes : Votes := ⟨0, 0, 0⟩
  total_latency_ms : Option ℚ := none
  total_cost_usd : ℚ := 0
  total_tokens : ℕ := 0

/-- The effective weight lookup of `aggregate`: `weights=None` becomes the
all-ones weight map `\x7bresp.provider_name: 1.0 for resp in responses\x7d`,
whose `.get(name, 1.0)` lookup is the constant-1 function. -/
def weightFun (weights : Option (String → ℚ)) : String → ℚ :=
  match weights with
  | none => fun _ => 1
  | some w => w

/-- `SignalAggregator.aggregate(responses, weights)` for an aggregator
constructed with `min_providers`. -/
def aggregate (min_providers : ℕ) (responses : List ProviderResponse)
    (weights : Option (String → ℚ)) : Except AggError ConsensusResult :=
  if responses.isEmpty then .error .noResponses
  else if responses.length < min_providers then
    .error (.insufficientProviders responses.length min_providers)
  else
    let W : String → ℚ := weightFun weights
    match calculate_weighted_votes W responses with
    | .error e => .error e
    | .ok weighted_votes =>
      let decision := winning_decision weighted_votes
      let confidence := calculate_consensus_confidence W responses decision
      .ok {
        decision := decision
        confidence := confidence
        reasoning := aggregate_reasoning responses decision
        risk_level := aggregate_risk_level responses
        suggested_stop_loss := aggregate_stop_loss responses decision
        suggested_take_profit := aggregate_take_profit responses decision
        total_providers := responses.length
        participating_providers := responses.length
        agreement_score := calculate_agreement_score weighted_votes decision
        weighted_confidence := confidence
        provider_responses := responses
        vote_breakdown := count_votes responses
        weighted_votes := weighted_votes
        total_latency_ms := some (total_latency responses)
        total_cost_usd := total_cost responses
        total_tokens := total_tokens responses }

example :
    (aggregate 1
      [{ provider_name := "a", model := "m", decision := "BUY",
         confidence := 4/5, reasoning := "up" },
       { provider_name := "b", model := "m", decision := "BUY",
         confidence := 3/5, reasoning := "also up" }] none).map
      ConsensusResult.decision = .ok "BUY" := by
  norm_num [aggregate, weightFun, calculate_weighted_votes, calculate_weighted_votes_loop,
    add_vote, vote_weight, winning_decision, Except.map]

example :
    (aggregate 1
      [{ provider_name := "a", model := "m", decision := "BUY",
         confidence := 4/5, reasoning := "up", risk_level := some "Low",
         suggested_stop_loss := some 100 },
       { provider_name := "b", model := "m", decision := "BUY",
         confidence := 3/5, reasoning := "also up", risk_level := some "high",
         suggested_stop_loss := some 102 }] none).map
      (fun c => (c.confidence, c.agreement_score, c.reasoning, c.risk_level,
        c.suggested_stop_loss)) =
      .ok (7/10, 1, "Consensus (2/2 providers agree): up", "high", some 102) := by
  norm_num [aggregate, weightFun, calculate_weighted_votes, calculate_weighted_votes_loop,
    add_vote, vote_weight, winning_decision, Except.map,
    calculate_consensus_confidence, supporters, calculate_agreement_score,
    Votes.total, Votes.get, aggregate_reasoning, firstMaxBy,
    aggregate_risk_level, present_risk_levels, risk_priority, lowerStr, lowerChar,
    aggregate_stop_loss, stop_loss_supporters, truthyQ, sortQ,
    List.insertionSort, List.orderedInsert, min_def, max_def] ; decide

/-! Orchestrator (`multi_provider_orchestrator.py`).  A provider call is
modelled by its simulated outcome: the `ProviderResponse` the awaited
`generate_signal` coroutine would deliver, or the exception message it
would raise.  The orchestration-level `asyncio.wait_for` timeout is a
separate boolean: when it fires, `_call_providers_parallel` discards the
gathered results and substitutes a `ProviderTimeoutError` for every
provider. -/

/-- A registered provider as the orchestrator sees it: its configured name
and weight and the simulated outcome of calling it. -/
structure ProviderSim where
  name : String
  weight : ℚ
  outcome : Except String ProviderResponse

/-- The errors `generate_consensus_signal` can raise: its three
`ValueError`s and the `RuntimeError` wrapping an aggregation failure. -/
inductive OrchError where
  | noProviders : OrchError
  | insufficientAvailable (available required : ℕ) (names : List String) : OrchError
  | insufficientSuccessful (succeeded failed : List String) : OrchError
  | aggregationFailed (e : AggError) : OrchError
deriving DecidableEq

/-- `_call_providers_parallel`: gathers one result per provider; when the
overall timeout fired, `results` is replaced by a `ProviderTimeoutError`
for every provider (`# Return timeout errors for all providers`).  Results
are then partitioned into successful responses and a name-keyed failure
map. -/
def call_providers_parallel (providers : List ProviderSim)
    (overall_timed_out : Bool) :
    List ProviderResponse × List (String × String) :=
  let results : List (Except String ProviderResponse) :=
    if overall_timed_out then
      providers.map (fun _ => .error ("Orchestration timeout"))
    else
      providers.map (fun p => p.outcome)
  let pairs := providers.zip results
  (pairs.filterMap (fun pr => pr.2.toOption),
   pairs.filterMap (fun pr =>
     match pr.2 with
     | .error e => some (pr.1.name, e)
     | .ok _ => none))

/-- `_build_weights_dict(responses, custom_weights)`: per successful
provider, an explicit override when present, else the registered provider's
configured weight, else `1.0`; names outside the built dict fall back to
the `.get` default `1.0`. -/
def build_weights_dict (responses : List ProviderResponse)
    (custom_weights : Option (String → Option ℚ))
    (registry : List ProviderSim) : String → ℚ :=
  fun n =>
    if responses.any (fun r => decide (r.provider_name = n)) then
      match custom_weights with
      | some cw =>
        match cw n with
        | some w => w
        | none =>
          match registry.find? (fun p => decide (p.name = n)) with
          | some p => p.weight
          | none => 1
      | none =>
        match registry.find? (fun p => decide (p.name = n)) with
        | some p => p.weight
        | none => 1
    else 1

/-- `generate_consensus_signal` for an orchestrator with the given
`min_providers`, where `available` is what `registry.get_available_providers()`
returned (and the universe for `get_provider` weight lookups), and
`elapsed_ms` the wall-clock latency stamped on the result.  The second
component is the list of providers actually called (the fan-out targets). -/
def generate_consensus_signal (min_providers : ℕ) (available : List ProviderSim)
    (custom_weights : Option (String → Option ℚ)) (overall_timed_out : Bool)
    (elapsed_ms : ℚ) : Except OrchError ConsensusResult × List String :=
  if available.isEmpty then (.error .noProviders, [])
  else if available.length < min_providers then
    (.error (.insufficientAvailable available.length min_providers
      (available.map (fun p => p.name))), [])
  else
    let called := available.map (fun p => p.name)
    let (responses, failures) := call_providers_parallel available overall_timed_out
    if responses.length < min_providers then
      (.error (.insufficientSuccessful (responses.map (fun r => r.provider_name))
        (failures.map (fun f => f.1))), called)
    else
      let weights := build_weights_dict responses custom_weights available
      match aggregate min_providers responses (some weights) with
      | .error e => (.error (.aggregationFailed e), called)
      | .ok consensus =>
        (.ok { consensus with
          total_latency_ms := some elapsed_ms
          total_providers := available.length }, called)

/-! Provider registry health checks (`providers/registry.py`) and the
status/config types from `providers/base.py`. -/

/-- `ProviderStatus`. -/
inductive ProviderStatus where
  | active : ProviderStatus
  | degraded : ProviderStatus
  | unavailable : ProviderStatus
  | circuitOpen : ProviderStatus
deriving DecidableEq

/-- A registered provider as `health_check_all` sees it: its name, current
status, and the simulated outcome of awaiting its `health_check()` (a
boolean, or the message of the exception it raises). -/
structure HandleSim where
  name : String
  status : ProviderStatus
  health : Except String Bool

/-- One iteration of the `health_check_all` loop for a single provider:
the recorded result boolean and the handle with its updated status
(`set_status` simply assigns the new status). -/
def health_check_step (h : HandleSim) : Bool × HandleSim :=
  match h.health with
  | .ok true =>
    (true, if h.status = ProviderStatus.unavailable
      then { h with status := ProviderStatus.active } else h)
  | .ok false => (false, { h with status := ProviderStatus.degraded })
  | .error _ => (false, { h with status := ProviderStatus.unavailable })

/-- `ProviderRegistry.health_check_all()`: the name-to-boolean result map
(in registry iteration order) together with the updated handles. -/
def health_check_all : List HandleSim → List (String × Bool) × List HandleSim
  | [] => ([], [])
  | h :: t =>
    let (b, h') := health_check_step h
    let (res, t') := health_check_all t
    ((h.name, b) :: res, h' :: t')

/-- `ProviderConfig` (`providers/base.py`), after `__post_init__`
validation has passed. -/
structure ProviderConfig where
  name : String
  model : String
  api_key : String
  max_tokens : ℤ
  temperature : ℚ
  timeout : ℤ
  max_retries : ℤ
  weight : ℚ
  enabled : Bool
deriving DecidableEq

/-- Constructing a `ProviderConfig`: the dataclass runs `__post_init__`,
which raises `ValueError` on an out-of-range `weight`, non-positive
`max_tokens` or non-positive `timeout`, in that order. -/
def mkProviderConfig (name model api_key : String) (max_tokens : ℤ)
    (temperature : ℚ) (timeout : ℤ) (max_retries : ℤ) (weight : ℚ)
    (enabled : Bool) : Except String ProviderConfig :=
  if weight < 0 ∨ 1 < weight then .error ("Weight must be between 0 and 1")
  else if max_tokens < 1 then .error ("max_tokens must be positive")
  else if timeout < 1 then .error ("timeout must be positive")
  else .ok ⟨name, model, api_key, max_tokens, temperature, timeout,
    max_retries, weight, enabled⟩

/-! ## Shared helper lemmas -/

/-- The decisions that are keys of the fixed vote dictionary. -/
def validDec (d : String) : Prop := d = "BUY" ∨ d = "SELL" ∨ d = "HOLD"

instance : DecidablePred validDec := fun d => by unfold validDec; infer_instance

/-- Weighted vote mass accumulated for decision `d` over a response list. -/
def weighted_mass (W : String → ℚ) (rs : List ProviderResponse) (d : String) : ℚ :=
  ((supporters rs d).map (vote_weight W)).sum

lemma supporters_nil (d : String) : supporters [] d = [] := rfl

lemma supporters_cons (r : ProviderResponse) (rs : List ProviderResponse) (d : String) :
    supporters (r :: rs) d =
      if r.decision = d then r :: supporters rs d else supporters rs d := by
  simp only [supporters, List.filter_cons]
  by_cases h : r.decision = d <;> simp [h]

lemma weighted_mass_nil (W : String → ℚ) (d : String) : weighted_mass W [] d = 0 := rfl

lemma weighted_mass_cons (W : String → ℚ) (r : ProviderResponse)
    (rs : List ProviderResponse) (d : String) :
    weighted_mass W (r :: rs) d =
      if r.decision = d then vote_weight W r + weighted_mass W rs d
      else weighted_mass W rs d := by
  simp only [weighted_mass, supporters_cons]
  by_cases h : r.decision = d <;> simp [h]

/-- The `_calculate_weighted_votes` loop, run from any accumulator over
responses whose decisions are all valid, accumulates exactly the weighted
mass of each decision. -/
lemma loop_ok_of_valid (W : String → ℚ) (rs : List ProviderResponse) (v : Votes)
    (hv : ∀ r ∈ rs, validDec r.decision) :
    calculate_weighted_votes_loop W rs v =
      .ok ⟨v.buy + weighted_mass W rs "BUY", v.sell + weighted_mass W rs "SELL",
           v.hold + weighted_mass W rs "HOLD"⟩ := by
  induction rs generalizing v with
  | nil => simp [calculate_weighted_votes_loop, weighted_mass_nil]
  | cons r rs ih =>
    have hr : validDec r.decision := hv r (by simp)
    have ht : ∀ x ∈ rs, validDec x.decision := fun x hx => hv x (by simp [hx])
    rcases hr with h | h | h <;>
      simp [calculate_weighted_votes_loop, add_vote, h, ih _ ht,
        weighted_mass_cons, add_assoc]

lemma calculate_weighted_votes_of_valid (W : String → ℚ)
    (rs : List ProviderResponse) (hv : ∀ r ∈ rs, validDec r.decision) :
    calculate_weighted_votes W rs =
      .ok ⟨weighted_mass W rs "BUY", weighted_mass W rs "SELL",
           weighted_mass W rs "HOLD"⟩ := by
  simpa [calculate_weighted_votes] using loop_ok_of_valid W rs ⟨0, 0, 0⟩ hv

/-- If the loop returned a vote dictionary, every decision it saw was a
valid key. -/
lemma loop_valid_of_ok (W : String → ℚ) (rs : List ProviderResponse) (v wv : Votes)
    (h : calculate_weighted_votes_loop W rs v = .ok wv) :
    ∀ r ∈ rs, validDec r.decision := by
  induction rs generalizing v with
  | nil => simp
  | cons r rs ih =>
    intro x hx
    unfold calculate_weighted_votes_loop at h
    revert h
    unfold add_vote
    by_cases h1 : r.decision = "BUY"
    · intro h
      rcases List.mem_cons.mp hx with hx' | hx'
      · subst hx'; exact Or.inl h1
      · exact ih _ (by simpa [h1] using h) x hx'
    · by_cases h2 : r.decision = "SELL"
      · intro h
        rcases List.mem_cons.mp hx with hx' | hx'
        · subst hx'; exact Or.inr (Or.inl h2)
        · exact ih _ (by simpa [h1, h2] using h) x hx'
      · by_cases h3 : r.decision = "HOLD"
        · intro h
          rcases List.mem_cons.mp hx with hx' | hx'
          · subst hx'; exact Or.inr (Or.inr h3)
          · exact ih _ (by simpa [h1, h2, h3] using h) x hx'
        · intro h
          simp [h1, h2, h3] at h

/-- If some decision in the list is not a valid key, the loop raises a
`KeyError` whose key is such a decision. -/
lemma loop_keyError_of_invalid (W : String → ℚ) (rs : List ProviderResponse)
    (v : Votes) (h : ∃ r ∈ rs, ¬ validDec r.decision) :
    ∃ d, calculate_weighted_votes_loop W rs v = .error (.keyError d) ∧ ¬ validDec d := by
  induction rs generalizing v with
  | nil => simp at h
  | cons r rs ih =>
    by_cases hr : validDec r.decision
    · have ht : ∃ x ∈ rs, ¬ validDec x.decision := by
        rcases h with ⟨x, hx, hnx⟩
        rcases List.mem_cons.mp hx with hx' | hx'
        · exact absurd hr (hx' ▸ hnx)
        · exact ⟨x, hx', hnx⟩
      rcases hr with h1 | h1 | h1 <;>
        · rcases ih _ ht with ⟨d, hd, hnd⟩
          refine ⟨d, ?_, hnd⟩
          simpa [calculate_weighted_votes_loop, add_vote, h1] using hd
    · refine ⟨r.decision, ?_, hr⟩
      have h1 : ¬ r.decision = "BUY" := fun hc => hr (Or.inl hc)
      have h2 : ¬ r.decision = "SELL" := fun hc => hr (Or.inr (Or.inl hc))
      have h3 : ¬ r.decision = "HOLD" := fun hc => hr (Or.inr (Or.inr hc))
      simp [calculate_weighted_votes_loop, add_vote, h1, h2, h3]

/-- Inversion of a successful `aggregate` call: the guard clauses passed,
the vote loop succeeded, and every field of the result is the corresponding
aggregation function applied to the inputs. -/
lemma aggregate_ok_inv (m : ℕ) (rs : List ProviderResponse)
    (w : Option (String → ℚ)) (c : ConsensusResult)
    (h : aggregate m rs w = .ok c) :
    rs ≠ [] ∧ m ≤ rs.length ∧
    calculate_weighted_votes (weightFun w) rs = .ok c.weighted_votes ∧
    c.decision = winning_decision c.weighted_votes ∧
    c.confidence = calculate_consensus_confidence (weightFun w) rs c.decision ∧
    c.reasoning = aggregate_reasoning rs c.decision ∧
    c.risk_level = aggregate_risk_level rs ∧
    c.suggested_stop_loss = aggregate_stop_loss rs c.decision ∧
    c.suggested_take_profit = aggregate_take_profit rs c.decision ∧
    c.agreement_score = calculate_agreement_score c.weighted_votes c.decision ∧
    c.weighted_confidence = c.confidence ∧
    c.total_providers = rs.length ∧ c.participating_providers = rs.length ∧
    c.provider_responses = rs ∧ c.vote_breakdown = count_votes rs ∧
    c.total_latency_ms = some (total_latency rs) ∧
    c.total_cost_usd = total_cost rs ∧ c.total_tokens = total_tokens rs := by
  unfold aggregate at h
  by_cases h1 : rs.isEmpty
  · simp [h1] at h
  · by_cases h2 : rs.length < m
    · simp [h1, h2] at h
    · rcases hcv : calculate_weighted_votes (weightFun w) rs with e | wv
      · simp [h1, h2, hcv] at h
      · simp only [h1, h2, hcv, if_false, Bool.false_eq_true] at h
        injection h with h
        subst h
        refine ⟨by simpa using h1, by omega, by simp [hcv], ?_⟩
        simp

/-- Conversely, when the guards pass and the vote loop succeeds, `aggregate`
returns a result. -/
lemma aggregate_isOk (m : ℕ) (rs : List ProviderResponse)
    (w : Option (String → ℚ)) (wv : Votes) (hne : rs ≠ [])
    (hm : m ≤ rs.length)
    (hcv : calculate_weighted_votes (weightFun w) rs = .ok wv) :
    ∃ c, aggregate m rs w = .ok c := by
  rcases hagg : aggregate m rs w with e | c
  · exfalso
    unfold aggregate at hagg
    rw [if_neg (by simpa using hne), if_neg (Nat.not_lt.mpr hm)] at hagg
    simp only [hcv] at hagg
    exact Except.noConfusion hagg
  · exact ⟨c, rfl⟩

/-- CPython `max` over the items of the vote dictionary in its fixed
insertion order BUY, SELL, HOLD: the first key attaining the maximum wins. -/
lemma winning_decision_spec (v : Votes) :
    (v.sell ≤ v.buy → v.hold ≤ v.buy → winning_decision v = "BUY") ∧
    (v.buy < v.sell → v.hold ≤ v.sell → winning_decision v = "SELL") ∧
    (v.buy < v.hold → v.sell < v.hold → winning_decision v = "HOLD") := by
  unfold winning_decision
  refine ⟨fun h1 h2 => ?_, fun h1 h2 => ?_, fun h1 h2 => ?_⟩
  · rw [if_neg (not_lt.mpr h1), if_neg (not_lt.mpr h1), if_neg (not_lt.mpr h2)]
  · rw [if_pos h1, if_pos h1, if_neg (not_lt.mpr h2)]
  · by_cases hb : v.buy < v.sell
    · rw [if_pos hb, if_pos hb, if_pos h2]
    · rw [if_neg hb, if_neg hb, if_pos h1]

/-- `firstMaxBy` returns an element of the list. -/
lemma firstMaxBy_mem {α β : Type _} [LinearOrder β] (f : α → β) (l : List α)
    (m : α) (h : firstMaxBy f l = some m) : m ∈ l := by
  cases l with
  | nil => simp [firstMaxBy] at h
  | cons x xs =>
    simp only [firstMaxBy, Option.some_inj] at h
    subst h
    have key : ∀ (ys : List α) (a : α),
        ys.foldl (fun cur y => if f cur < f y then y else cur) a = a ∨
        ys.foldl (fun cur y => if f cur < f y then y else cur) a ∈ ys := by
      intro ys
      induction ys with
      | nil => intro a; left; rfl
      | cons y ys ih =>
        intro a
        simp only [List.foldl_cons]
        by_cases hy : f a < f y
        · rw [if_pos hy]
          rcases ih y with h' | h'
          · right; simp [h']
          · right; simp [h']
        · rw [if_neg hy]
          rcases ih a with h' | h'
          · left; exact h'
          · right; simp [h']
    rcases key xs x with h' | h'
    · simp [h']
    · simp [h']

/-- `firstMaxBy` returns an element whose key bounds the whole list. -/
lemma firstMaxBy_le {α β : Type _} [LinearOrder β] (f : α → β) (l : List α)
    (m : α) (h : firstMaxBy f l = some m) : ∀ x ∈ l, f x ≤ f m := by
  cases l with
  | nil => simp [firstMaxBy] at h
  | cons x xs =>
    simp only [firstMaxBy, Option.some_inj] at h
    subst h
    have key : ∀ (ys : List α) (a : α),
        f a ≤ f (ys.foldl (fun cur y => if f cur < f y then y else cur) a) ∧
        ∀ x ∈ ys, f x ≤ f (ys.foldl (fun cur y => if f cur < f y then y else cur) a) := by
      intro ys
      induction ys with
      | nil => intro a; simp
      | cons y ys ih =>
        intro a
        simp only [List.foldl_cons]
        by_cases hy : f a < f y
        · rw [if_pos hy]
          refine ⟨le_trans (le_of_lt hy) (ih y).1, ?_⟩
          intro z hz
          rcases List.mem_cons.mp hz with hz' | hz'
          · rw [hz']; exact (ih y).1
          · exact (ih y).2 z hz'
        · rw [if_neg hy]
          refine ⟨(ih a).1, ?_⟩
          intro z hz
          rcases List.mem_cons.mp hz with hz' | hz'
          · rw [hz']; exact le_trans (not_lt.mp hy) (ih a).1
          · exact (ih a).2 z hz'
    intro z hz
    rcases List.mem_cons.mp hz with hz' | hz'
    · subst hz'; exact (key xs z).1
    · exact (key xs x).2 z hz'

/-- A minimal response used in concrete instantiations. -/
def sampleResponse (name decision : String) (confidence : ℚ)
    (reasoning : String) : ProviderResponse :=
  { provider_name := name, model := "model", decision := decision,
    confidence := confidence, reasoning := reasoning }

/-! ## C8: ProviderConfig weight validation -/

/-- C8: constructing a `ProviderConfig` with `weight` outside `[0, 1]`
raises `ValueError` immediately in `__post_init__`, and every successfully
constructed `ProviderConfig` satisfies `0 ≤ weight ≤ 1`. -/
theorem providerConfig_weight_validation :
    (∀ name model api_key max_tokens temperature timeout max_retries weight
        enabled, ((weight : ℚ) < 0 ∨ 1 < weight) →
      mkProviderConfig name model api_key max_tokens temperature timeout
        max_retries weight enabled = .error ("Weight must be between 0 and 1")) ∧
    (∀ name model api_key max_tokens temperature timeout max_retries weight
        enabled c,
      mkProviderConfig name model api_key max_tokens temperature timeout
        max_retries weight enabled = .ok c → 0 ≤ c.weight ∧ c.weight ≤ 1) := by
  constructor
  · intro n mo k mt tp ti mr w e h
    unfold mkProviderConfig
    rw [if_pos h]
  · intro n mo k mt tp ti mr w e c h
    unfold mkProviderConfig at h
    by_cases h1 : w < 0 ∨ 1 < w
    · rw [if_pos h1] at h
      exact Except.noConfusion h
    · rw [if_neg h1] at h
      push_neg at h1
      by_cases h2 : mt < 1
      · rw [if_pos h2] at h
        exact Except.noConfusion h
      · rw [if_neg h2] at h
        by_cases h3 : ti < 1
        · rw [if_pos h3] at h
          exact Except.noConfusion h
        · rw [if_neg h3] at h
          injection h with h
          subst h
          exact ⟨h1.1, h1.2⟩

/-- Witness for C8 at concrete inputs: weight `3/2` is rejected and a
config constructed with weight `1/2` satisfies the bounds. -/
theorem providerConfig_weight_validation_witness :
    mkProviderConfig "grok" "grok-2" "key" 1024 (7/10) 30 3 (3/2) true
      = .error ("Weight must be between 0 and 1") ∧
    ((0 : ℚ) ≤ (⟨"grok", "grok-2", "key", 1024, 7/10, 30, 3, 1/2, true⟩ :
        ProviderConfig).weight ∧
      (⟨"grok", "grok-2", "key", 1024, 7/10, 30, 3, 1/2, true⟩ :
        ProviderConfig).weight ≤ 1) := by
  constructor
  · exact providerConfig_weight_validation.1 "grok" "grok-2" "key" 1024 (7/10)
      30 3 (3/2) true (by norm_num)
  · refine providerConfig_weight_validation.2 "grok" "grok-2" "key" 1024 (7/10)
      30 3 (1/2) true _ ?_
    unfold mkProviderConfig
    norm_num

/-! ## C7: health_check_all status transitions -/

lemma health_check_all_fst (hs : List HandleSim) :
    (health_check_all hs).1 = hs.map (fun h => (h.name, (health_check_step h).1)) := by
  induction hs with
  | nil => rfl
  | cons h t ih => simp [health_check_all, ih]

lemma health_check_all_snd (hs : List HandleSim) :
    (health_check_all hs).2 = hs.map (fun h => (health_check_step h).2) := by
  induction hs with
  | nil => rfl
  | cons h t ih => simp [health_check_all, ih]

lemma health_check_step_name (h : HandleSim) :
    (health_check_step h).2.name = h.name := by
  unfold health_check_step
  rcases hb : h.health with e | b
  · rfl
  · cases b
    · rfl
    · dsimp only
      split <;> rfl

/-- C7 counterexample: the claim says a passing health check moves a
provider to `Active` also from `Degraded`, and that a passing explicit
health check is the only transition out of `Unavailable`.  On the code, a
`Degraded` provider whose check passes stays `Degraded`, and an
`Unavailable` provider whose check returns `False` moves to `Degraded` —
leaving `Unavailable` without a passing check. -/
theorem health_check_all_claim_cex :
    (health_check_all [⟨"openai", ProviderStatus.degraded, Except.ok true⟩]).2.map
        (fun h => h.status) = [ProviderStatus.degraded] ∧
    ProviderStatus.degraded ≠ ProviderStatus.active ∧
    (health_check_all [⟨"gemini", ProviderStatus.unavailable, Except.ok false⟩]).2.map
        (fun h => h.status) = [ProviderStatus.degraded] ∧
    ProviderStatus.degraded ≠ ProviderStatus.unavailable := by
  refine ⟨rfl, by decide, rfl, by decide⟩

/-- C7 amended: per handle, `health_check_all` moves a provider whose check
passes to `Active` only from `Unavailable` (any other status is left
unchanged, in particular `Degraded` stays `Degraded`); a check returning
`False` moves the provider to `Degraded` from any status, including
`Unavailable`; a check that raises moves it to `Unavailable`. -/
theorem health_check_all_state_machine (hs : List HandleSim) (i : ℕ)
    (h : HandleSim) (hh : hs.get? i = some h) :
    ∃ h', (health_check_all hs).2.get? i = some h' ∧ h'.name = h.name ∧
      (h.health = Except.ok true → h.status = ProviderStatus.unavailable →
        h'.status = ProviderStatus.active) ∧
      (h.health = Except.ok true → h.status ≠ ProviderStatus.unavailable →
        h'.status = h.status) ∧
      (h.health = Except.ok false → h'.status = ProviderStatus.degraded) ∧
      (∀ e, h.health = Except.error e → h'.status = ProviderStatus.unavailable) := by
  refine ⟨(health_check_step h).2, ?_, health_check_step_name h, ?_, ?_, ?_, ?_⟩
  · rw [health_check_all_snd, List.get?_map, hh]
    rfl
  · intro hht hst
    unfold health_check_step
    rw [hht]
    simp [hst]
  · intro hht hst
    unfold health_check_step
    rw [hht]
    simp [hst]
  · intro hht
    unfold health_check_step
    rw [hht]
  · intro e hht
    unfold health_check_step
    rw [hht]

/-- Witness for C7 amended at a concrete registry: an `Unavailable`
provider with a passing check comes back `Active`. -/
theorem health_check_all_state_machine_witness :
    ∃ h', (health_check_all
        [⟨"anthropic", ProviderStatus.unavailable, Except.ok true⟩]).2.get? 0
        = some h' ∧ h'.status = ProviderStatus.active := by
  obtain ⟨h', h1, _, h3, _, _, _⟩ :=
    health_check_all_state_machine
      [⟨"anthropic", ProviderStatus.unavailable, Except.ok true⟩] 0
      ⟨"anthropic", ProviderStatus.unavailable, Except.ok true⟩ rfl
  exact ⟨h', h1, h3 rfl rfl⟩

/-! ## C4 and C1: orchestrator quorum and overall-timeout behaviour -/

/-- Shared inversion: when the availability guards pass but fewer than
`min_providers` calls succeeded, `generate_consensus_signal` raises the
insufficient-successful-responses error naming the succeeded and failed
providers, after having called every available provider. -/
lemma generate_consensus_insufficient (min_providers : ℕ)
    (available : List ProviderSim) (cw : Option (String → Option ℚ))
    (tmo : Bool) (el : ℚ) (h1 : available ≠ [])
    (h2 : min_providers ≤ available.length)
    (h3 : (call_providers_parallel available tmo).1.length < min_providers) :
    generate_consensus_signal min_providers available cw tmo el
      = (.error (.insufficientSuccessful
          ((call_providers_parallel available tmo).1.map (fun r => r.provider_name))
          ((call_providers_parallel available tmo).2.map (fun f => f.1))),
         available.map (fun p => p.name)) := by
  unfold generate_consensus_signal
  rw [if_neg (by simpa using h1), if_neg (Nat.not_lt.mpr h2)]
  rcases hcall : call_providers_parallel available tmo with ⟨resp, fl⟩
  rw [hcall] at h3
  simp only [hcall, if_pos h3]

/-- C4: `generate_consensus_signal` fails fast — making no provider calls —
when the available set is empty or smaller than `min_providers`; after
fan-out, if fewer than `min_providers` calls succeeded it fails with an
insufficient-successful-responses error naming the succeeded and failed
providers; and it returns a `ConsensusResult` only when at least
`min_providers` calls succeeded. -/
theorem generate_consensus_quorum (min_providers : ℕ)
    (available : List ProviderSim) (cw : Option (String → Option ℚ))
    (tmo : Bool) (el : ℚ) :
    (available = [] →
      generate_consensus_signal min_providers available cw tmo el
        = (.error .noProviders, [])) ∧
    (available ≠ [] → available.length < min_providers →
      generate_consensus_signal min_providers available cw tmo el
        = (.error (.insufficientAvailable available.length min_providers
            (available.map (fun p => p.name))), [])) ∧
    (available ≠ [] → min_providers ≤ available.length →
      (call_providers_parallel available tmo).1.length < min_providers →
      generate_consensus_signal min_providers available cw tmo el
        = (.error (.insufficientSuccessful
            ((call_providers_parallel available tmo).1.map (fun r => r.provider_name))
            ((call_providers_parallel available tmo).2.map (fun f => f.1))),
           available.map (fun p => p.name))) ∧
    (∀ c called, generate_consensus_signal min_providers available cw tmo el
        = (.ok c, called) →
      min_providers ≤ (call_providers_parallel available tmo).1.length) := by
  refine ⟨?_, ?_, generate_consensus_insufficient min_providers available cw tmo el, ?_⟩
  · intro h
    subst h
    rfl
  · intro h1 h2
    unfold generate_consensus_signal
    rw [if_neg (by simpa using h1), if_pos h2]
  · intro c called h
    by_contra hlt
    push_neg at hlt
    by_cases h1 : available = []
    · subst h1
      simp [generate_consensus_signal] at h
    · by_cases h2 : min_providers ≤ available.length
      · rw [generate_consensus_insufficient min_providers available cw tmo el
          h1 h2 hlt] at h
        simp at h
      · unfold generate_consensus_signal at h
        rw [if_neg (by simpa using h1),
          if_pos (Nat.lt_of_not_le h2)] at h
        simp at h

/-- Witness for C4 at concrete inputs: an empty registry fails with
`noProviders`; one available provider with `min_providers = 2` fails
before any call; and with `min_providers = 2`, two providers of which
only one succeeds fail with the named insufficient-successes error. -/
theorem generate_consensus_quorum_witness :
    (generate_consensus_signal 2 [] none false 10 = (.error .noProviders, [])) ∧
    (generate_consensus_signal 2 [⟨"p1", 1, .ok (sampleResponse "p1" "BUY" 1 "up")⟩]
        none false 10
      = (.error (.insufficientAvailable 1 2 ["p1"]), [])) ∧
    (generate_consensus_signal 2
        [⟨"p1", 1, .ok (sampleResponse "p1" "BUY" 1 "up")⟩,
         ⟨"p2", 1, .error "rate limited"⟩] none false 10
      = (.error (.insufficientSuccessful ["p1"] ["p2"]), ["p1", "p2"])) := by
  refine ⟨(generate_consensus_quorum 2 [] none false 10).1 rfl, ?_, ?_⟩
  · exact (generate_consensus_quorum 2 _ none false 10).2.1
      (by simp) (by simp)
  · have h := (generate_consensus_quorum 2
      [⟨"p1", 1, .ok (sampleResponse "p1" "BUY" 1 "up")⟩,
       ⟨"p2", 1, .error "rate limited"⟩] none false 10).2.2.1
      (by simp) (by simp) (by decide)
    simpa [call_providers_parallel] using h

/-- On overall timeout `_call_providers_parallel` substitutes a timeout
error for every provider, completed or not: no successes, every provider in
the failure map. -/
lemma call_providers_parallel_timeout (ps : List ProviderSim) :
    call_providers_parallel ps true
      = ([], ps.map (fun p => (p.name, "Orchestration timeout"))) := by
  induction ps with
  | nil => rfl
  | cons p t ih =>
    simp_all [call_providers_parallel, Except.toOption]
    intro a b hmem
    have hb := List.eq_of_mem_replicate (List.of_mem_zip hmem).2
    subst hb
    rfl

/-- C1 counterexample: 3 available providers, two of which have completed
successfully while the third never completes before the overall deadline.
The claim says the engine still returns a `ConsensusResult` from the two
completed responses with `total_providers = 3` and
`participating_providers = 2`; the code instead discards the completed
responses, records a timeout failure for all three providers, and raises
the insufficient-successful-responses error. -/
theorem orchestrator_timeout_claim_cex :
    generate_consensus_signal 1
      [⟨"p1", 1, .ok (sampleResponse "p1" "BUY" 1 "momentum")⟩,
       ⟨"p2", 1, .ok (sampleResponse "p2" "BUY" 1 "breakout")⟩,
       ⟨"p3", 1, .error "never completed"⟩] none true 500
      = (.error (.insufficientSuccessful [] ["p1", "p2", "p3"]),
         ["p1", "p2", "p3"]) := rfl

/-- C1 amended: when the overall orchestration deadline elapses, every
provider — including those whose calls already completed — is treated as a
timeout failure, so (for `min_providers ≥ 1`) `generate_consensus_signal`
raises the insufficient-successful-responses error listing no successes and
every available provider as failed, instead of aggregating the completed
subset. -/
theorem orchestrator_timeout_all_fail (min_providers : ℕ)
    (available : List ProviderSim) (cw : Option (String → Option ℚ)) (el : ℚ)
    (hne : available ≠ []) (hmin : min_providers ≤ available.length)
    (h1 : 1 ≤ min_providers) :
    generate_consensus_signal min_providers available cw true el
      = (.error (.insufficientSuccessful [] (available.map (fun p => p.name))),
         available.map (fun p => p.name)) := by
  have hc := call_providers_parallel_timeout available
  have h3 : (call_providers_parallel available true).1.length < min_providers := by
    rw [hc]
    simpa using h1
  have h := generate_consensus_insufficient min_providers available cw true el
    hne hmin h3
  rw [hc] at h
  simpa using h

/-- Witness for C1 amended at the concrete 3-provider registry. -/
theorem orchestrator_timeout_all_fail_witness :
    generate_consensus_signal 1
      [⟨"p1", 1, .ok (sampleResponse "p1" "SELL" 1 "risk off")⟩,
       ⟨"p2", 1, .error "rate limited"⟩,
       ⟨"p3", 1, .error "never completed"⟩] none true 700
      = (.error (.insufficientSuccessful [] ["p1", "p2", "p3"]),
         ["p1", "p2", "p3"]) := by
  have h := orchestrator_timeout_all_fail 1
    [⟨"p1", 1, .ok (sampleResponse "p1" "SELL" 1 "risk off")⟩,
     ⟨"p2", 1, .error "rate limited"⟩,
     ⟨"p3", 1, .error "never completed"⟩] none 700
    (by simp) (by simp) le_rfl
  simpa using h

/-! ## C9: deterministic tie-break BUY over SELL over HOLD -/

/-- C9: when two or more decisions have equal maximal weighted vote mass,
`aggregate` picks the first of the fixed dictionary order BUY, SELL, HOLD:
BUY wins unless SELL is strictly greater, and HOLD wins only when strictly
greater than both. -/
theorem aggregate_tie_break (m : ℕ) (rs : List ProviderResponse)
    (w : Option (String → ℚ)) (c : ConsensusResult)
    (h : aggregate m rs w = .ok c) :
    (c.weighted_votes.sell ≤ c.weighted_votes.buy →
      c.weighted_votes.hold ≤ c.weighted_votes.buy → c.decision = "BUY") ∧
    (c.weighted_votes.buy < c.weighted_votes.sell →
      c.weighted_votes.hold ≤ c.weighted_votes.sell → c.decision = "SELL") ∧
    (c.weighted_votes.buy < c.weighted_votes.hold →
      c.weighted_votes.sell < c.weighted_votes.hold → c.decision = "HOLD") := by
  have hd := (aggregate_ok_inv m rs w c h).2.2.2.1
  have hs := winning_decision_spec c.weighted_votes
  exact ⟨fun h1 h2 => hd.trans (hs.1 h1 h2),
    fun h1 h2 => hd.trans (hs.2.1 h1 h2),
    fun h1 h2 => hd.trans (hs.2.2 h1 h2)⟩

/-- Witness for C9 at a concrete exact tie: one BUY and one SELL vote of
equal weighted mass resolve to BUY. -/
theorem aggregate_tie_break_witness :
    (aggregate 1 [sampleResponse "a" "BUY" 1 "bull case",
        sampleResponse "b" "SELL" 1 "bear case"] none).map
      (fun c => (c.decision, c.weighted_votes)) = .ok ("BUY", ⟨1, 1, 0⟩) := by
  rcases heq : aggregate 1 [sampleResponse "a" "BUY" 1 "bull case",
      sampleResponse "b" "SELL" 1 "bear case"] none with e | c
  · exfalso
    revert heq
    norm_num [aggregate, weightFun, calculate_weighted_votes,
      calculate_weighted_votes_loop, add_vote, vote_weight, sampleResponse]
    simp
  · have hv : c.weighted_votes = ⟨1, 1, 0⟩ := by
      have hcv := (aggregate_ok_inv 1 _ none c heq).2.2.1
      have hcv2 : calculate_weighted_votes (weightFun none)
          [sampleResponse "a" "BUY" 1 "bull case",
           sampleResponse "b" "SELL" 1 "bear case"] = .ok ⟨1, 1, 0⟩ := by
        norm_num [weightFun, calculate_weighted_votes,
          calculate_weighted_votes_loop, add_vote, vote_weight, sampleResponse]
        simp
      rw [hcv2] at hcv
      injection hcv with hcv
      exact hcv.symm
    have hb := (aggregate_tie_break 1 _ none c heq).1
      (by rw [hv]) (by rw [hv]; norm_num)
    simp [heq, Except.map, hb, hv]

/-! ## C10: totality of aggregate under the decision-validity precondition -/

/-- C10 counterexample: the claim quantifies over every response list of
length at least `min_providers`; for an aggregator with `min_providers = 0`
the empty list satisfies that bound with every decision vacuously valid,
yet `aggregate` raises its no-responses `ValueError` instead of returning a
`ConsensusResult`. -/
theorem aggregate_total_claim_cex :
    ([] : List ProviderResponse).length ≥ 0 ∧
    (∀ r ∈ ([] : List ProviderResponse), validDec r.decision) ∧
    aggregate 0 [] none = .error .noResponses := by
  refine ⟨le_rfl, by simp, rfl⟩

/-- C10 amended: for every non-empty response list of length at least
`min_providers`, `aggregate` returns a `ConsensusResult` without raising
when every decision lies in BUY/SELL/HOLD, and raises an (unguarded)
`KeyError` carrying an out-of-range decision when some decision lies
outside that set. -/
theorem aggregate_total_iff_valid (m : ℕ) (rs : List ProviderResponse)
    (w : Option (String → ℚ)) (hne : rs ≠ []) (hm : m ≤ rs.length) :
    ((∀ r ∈ rs, validDec r.decision) → ∃ c, aggregate m rs w = .ok c) ∧
    ((∃ r ∈ rs, ¬ validDec r.decision) →
      ∃ d, aggregate m rs w = .error (.keyError d) ∧ ¬ validDec d) := by
  constructor
  · intro hv
    exact aggregate_isOk m rs w _ hne hm (calculate_weighted_votes_of_valid _ rs hv)
  · intro hex
    obtain ⟨d, hd, hnd⟩ := loop_keyError_of_invalid (weightFun w) rs ⟨0, 0, 0⟩ hex
    refine ⟨d, ?_, hnd⟩
    unfold aggregate
    rw [if_neg (by simpa using hne), if_neg (Nat.not_lt.mpr hm)]
    simp only [calculate_weighted_votes, hd]

/-- Witness for C10 amended: a valid single-response list aggregates
successfully, and a decision `"WAIT"` raises a `KeyError` on an invalid
key. -/
theorem aggregate_total_iff_valid_witness :
    (∃ c, aggregate 1 [sampleResponse "a" "HOLD" 1 "wait and see"] none = .ok c) ∧
    (∃ d, aggregate 1 [sampleResponse "a" "WAIT" 1 "unsure"] none
        = .error (.keyError d) ∧ ¬ validDec d) := by
  constructor
  · refine (aggregate_total_iff_valid 1 _ none (by simp) (by simp)).1 ?_
    intro r hr
    rw [List.mem_singleton] at hr
    subst hr
    exact Or.inr (Or.inr rfl)
  · refine (aggregate_total_iff_valid 1 _ none (by simp) (by simp)).2 ?_
    exact ⟨sampleResponse "a" "WAIT" 1 "unsure", by simp, by decide⟩

/-! ## C6: risk-level aggregation -/

/-- C6 counterexample: the claim says a response with an absent risk level
defaults to `medium`, so `\x7blow, absent\x7d` should aggregate to
`medium`.  The code filters absent values out and takes the maximum of the
rest, so `\x7blow, absent\x7d` aggregates to `low`. -/
theorem aggregate_risk_claim_cex :
    (aggregate 1
      [{ sampleResponse "a" "BUY" 1 "r1" with risk_level := some "low" },
       sampleResponse "b" "BUY" 1 "r2"] none).map (fun c => c.risk_level)
      = .ok "low" ∧ ("low" : String) ≠ "medium" := by
  constructor
  · norm_num [aggregate, weightFun, calculate_weighted_votes,
      calculate_weighted_votes_loop, add_vote, vote_weight, winning_decision,
      Except.map, aggregate_risk_level, present_risk_levels, firstMaxBy,
      sampleResponse]
    decide
  · decide

/-- C6 amended: `aggregate`'s risk level considers all responses regardless
of decision, but ignores responses whose risk level is absent (or empty)
rather than defaulting them to `medium`: when at least one risk level is
present the result is a present risk level of maximal priority under
`high > medium > low` (unrecognised labels rank as `medium`), and `medium`
is returned only when no response carries a risk level. -/
theorem aggregate_risk_level_spec (rs : List ProviderResponse) :
    (present_risk_levels rs = [] → aggregate_risk_level rs = "medium") ∧
    (present_risk_levels rs ≠ [] →
      aggregate_risk_level rs ∈ present_risk_levels rs ∧
      ∀ l ∈ present_risk_levels rs,
        risk_priority l ≤ risk_priority (aggregate_risk_level rs)) ∧
    (∀ m w c, aggregate m rs w = .ok c → c.risk_level = aggregate_risk_level rs) := by
  refine ⟨?_, ?_, ?_⟩
  · intro h
    unfold aggregate_risk_level
    rw [h]
    rfl
  · intro h
    rcases hfm : firstMaxBy risk_priority (present_risk_levels rs) with _ | l
    · exfalso
      cases hp : present_risk_levels rs with
      | nil => exact h hp
      | cons a t =>
        rw [hp] at hfm
        simp [firstMaxBy] at hfm
    · have hmem := firstMaxBy_mem risk_priority (present_risk_levels rs) l hfm
      have hle := firstMaxBy_le risk_priority (present_risk_levels rs) l hfm
      unfold aggregate_risk_level
      rw [hfm]
      exact ⟨hmem, hle⟩
  · intro m w c h
    exact (aggregate_ok_inv m rs w c h).2.2.2.2.2.2.1

/-- Witness for C6 amended with present risk levels `low, HIGH, medium`:
the aggregated level is a present label of maximal priority (here `HIGH`,
whatever case it was supplied in). -/
theorem aggregate_risk_level_spec_witness :
    aggregate_risk_level
        [{ sampleResponse "a" "BUY" 1 "r1" with risk_level := some "low" },
         { sampleResponse "b" "SELL" 1 "r2" with risk_level := some "HIGH" },
         { sampleResponse "c" "BUY" 1 "r3" with risk_level := some "medium" }]
      = "HIGH" ∧
    "HIGH" ∈ present_risk_levels
        [{ sampleResponse "a" "BUY" 1 "r1" with risk_level := some "low" },
         { sampleResponse "b" "SELL" 1 "r2" with risk_level := some "HIGH" },
         { sampleResponse "c" "BUY" 1 "r3" with risk_level := some "medium" }] := by
  have h := (aggregate_risk_level_spec
    [{ sampleResponse "a" "BUY" 1 "r1" with risk_level := some "low" },
     { sampleResponse "b" "SELL" 1 "r2" with risk_level := some "HIGH" },
     { sampleResponse "c" "BUY" 1 "r3" with risk_level := some "medium" }]).2.1
    (by decide)
  have heq : aggregate_risk_level
      [{ sampleResponse "a" "BUY" 1 "r1" with risk_level := some "low" },
       { sampleResponse "b" "SELL" 1 "r2" with risk_level := some "HIGH" },
       { sampleResponse "c" "BUY" 1 "r3" with risk_level := some "medium" }]
      = "HIGH" := by decide
  exact ⟨heq, heq ▸ h.1⟩

/-! ## C5: stop-loss / take-profit median -/

lemma sortQ_perm (l : List ℚ) : List.Perm (sortQ l) l := List.perm_insertionSort _ l

lemma sortQ_sorted (l : List ℚ) : (sortQ l).Sorted (· ≤ ·) :=
  List.sorted_insertionSort _ l

/-- In an ascending-sorted list, at least `k + 1` elements are `≤` the
element at index `k`, and at least `length - k` elements are `≥` it. -/
lemma sorted_get_counts :
    ∀ (s : List ℚ), s.Sorted (· ≤ ·) → ∀ (k : ℕ) (hk : k < s.length),
      k + 1 ≤ s.countP (fun x => decide (x ≤ s.get ⟨k, hk⟩)) ∧
      s.length - k ≤ s.countP (fun x => decide (s.get ⟨k, hk⟩ ≤ x)) := by
  intro s
  induction s with
  | nil => intro _ k hk; simp at hk
  | cons a t ih =>
    intro hs k hk
    rw [List.sorted_cons] at hs
    cases k with
    | zero =>
      constructor
      · rw [List.countP_cons]
        simp
      · have hall : (a :: t).countP (fun x => decide ((a :: t).get ⟨0, hk⟩ ≤ x))
            = (a :: t).length := by
          rw [List.countP_eq_length]
          intro x hx
          rcases List.mem_cons.mp hx with hx' | hx'
          · simp [hx']
          · simpa using hs.1 x hx'
        rw [hall]
        omega
    | succ k =>
      have hk' : k < t.length := by simpa using hk
      have hget : (a :: t).get ⟨k + 1, hk⟩ = t.get ⟨k, hk'⟩ := rfl
      obtain ⟨ih1, ih2⟩ := ih hs.2 k hk'
      constructor
      · rw [List.countP_cons, hget]
        have ha : a ≤ t.get ⟨k, hk'⟩ := hs.1 _ (List.get_mem t k hk')
        simp only [decide_eq_true_eq]
        rw [if_pos ha]
        omega
      · rw [List.countP_cons, hget]
        have : (a :: t).length - (k + 1) = t.length - k := by simp
        rw [this]
        omega

/-- The element `sorted(l)[len(l) // 2]` exists for non-empty `l`, belongs
to `l`, and is an upper median: at least half the values (strictly more
than half for odd length) are `≤` it and at least half are `≥` it. -/
lemma median_of_sortQ (l : List ℚ) (hl : l ≠ []) :
    ∃ v, (sortQ l).get? ((sortQ l).length / 2) = some v ∧ v ∈ l ∧
      l.length / 2 + 1 ≤ l.countP (fun x => decide (x ≤ v)) ∧
      l.length - l.length / 2 ≤ l.countP (fun x => decide (v ≤ x)) := by
  have hperm := sortQ_perm l
  have hlen : (sortQ l).length = l.length := hperm.length_eq
  have hpos : 0 < (sortQ l).length := by
    rw [hlen]
    exact List.length_pos.mpr hl
  have hk : (sortQ l).length / 2 < (sortQ l).length :=
    Nat.div_lt_self hpos (by norm_num)
  obtain ⟨hc1, hc2⟩ := sorted_get_counts (sortQ l) (sortQ_sorted l)
    ((sortQ l).length / 2) hk
  refine ⟨(sortQ l).get ⟨(sortQ l).length / 2, hk⟩, List.get?_eq_get hk, ?_, ?_, ?_⟩
  · exact hperm.subset (List.get_mem _ _ _)
  · rw [← hperm.countP_eq, ← hlen]
    exact hc1
  · rw [← hperm.countP_eq, ← hlen]
    exact hc2

lemma filterMap_length_of_isSome {α β : Type _} (g : α → Option β) (l : List α)
    (h : ∀ x ∈ l, (g x).isSome) : (l.filterMap g).length = l.length := by
  induction l with
  | nil => rfl
  | cons a t ih =>
    have ha := h a (by simp)
    rcases hg : g a with _ | b
    · rw [hg] at ha
      simp at ha
    · simp [List.filterMap_cons, hg, ih (fun x hx => h x (by simp [hx]))]

lemma stop_loss_supporters_isSome (rs : List ProviderResponse) (d : String) :
    ∀ x ∈ stop_loss_supporters rs d, x.suggested_stop_loss.isSome := by
  intro x hx
  have := (List.mem_filter.mp hx).2
  rcases hsl : x.suggested_stop_loss with _ | v
  · rw [Bool.and_eq_true] at this
    rw [hsl] at this
    simp [truthyQ] at this
  · rfl

lemma take_profit_supporters_isSome (rs : List ProviderResponse) (d : String) :
    ∀ x ∈ take_profit_supporters rs d, x.suggested_take_profit.isSome := by
  intro x hx
  have := (List.mem_filter.mp hx).2
  rcases hsl : x.suggested_take_profit with _ | v
  · rw [Bool.and_eq_true] at this
    rw [hsl] at this
    simp [truthyQ] at this
  · rfl

/-- The stop-loss values `sorted(...)` is taken over: truthy values of
supporters of the decision. -/
def stop_loss_values (rs : List ProviderResponse) (d : String) : List ℚ :=
  (stop_loss_supporters rs d).filterMap (fun r => r.suggested_stop_loss)

/-- The take-profit values of supporters of the decision. -/
def take_profit_values (rs : List ProviderResponse) (d : String) : List ℚ :=
  (take_profit_supporters rs d).filterMap (fun r => r.suggested_take_profit)

lemma stop_loss_values_length (rs : List ProviderResponse) (d : String) :
    (stop_loss_values rs d).length = (stop_loss_supporters rs d).length :=
  filterMap_length_of_isSome _ _ (stop_loss_supporters_isSome rs d)

lemma take_profit_values_length (rs : List ProviderResponse) (d : String) :
    (take_profit_values rs d).length = (take_profit_supporters rs d).length :=
  filterMap_length_of_isSome _ _ (take_profit_supporters_isSome rs d)

/-- C5 counterexample: the claim says the aggregated stop loss is the
median of the non-null supporter values and is absent only when no
supporter supplies one.  With supporter values `[100, 102]` the code
returns `102` (the upper-middle element), not the median `101`; and a
supporter supplying the non-null value `0.0` is dropped by Python
truthiness, leaving the aggregate absent. -/
theorem aggregate_stop_loss_claim_cex :
    ((aggregate 1
        [{ sampleResponse "a" "BUY" 1 "r1" with suggested_stop_loss := some 100 },
         { sampleResponse "b" "BUY" 1 "r2" with suggested_stop_loss := some 102 }]
        none).map (fun c => c.suggested_stop_loss) = .ok (some 102) ∧
      (102 : ℚ) ≠ (100 + 102) / 2) ∧
    ((aggregate 1
        [{ sampleResponse "a" "BUY" 1 "r1" with suggested_stop_loss := some 0 }]
        none).map (fun c => c.suggested_stop_loss) = .ok none) := by
  refine ⟨⟨?_, by norm_num⟩, ?_⟩
  · norm_num [aggregate, weightFun, calculate_weighted_votes,
      calculate_weighted_votes_loop, add_vote, vote_weight, winning_decision,
      Except.map, aggregate_stop_loss, stop_loss_supporters, truthyQ, sortQ,
      List.insertionSort, List.orderedInsert, sampleResponse]
  · norm_num [aggregate, weightFun, calculate_weighted_votes,
      calculate_weighted_votes_loop, add_vote, vote_weight, winning_decision,
      Except.map, aggregate_stop_loss, stop_loss_supporters, truthyQ,
      sampleResponse]

/-- C5 amended: the aggregated stop loss (take profit) is drawn from the
*truthy* (non-null and non-zero) stop-loss (take-profit) values of
supporters of the decision only: it is absent exactly when that value list
is empty, and otherwise it is one of those values and an upper median of
them — at least `⌊k/2⌋ + 1` of the `k` values are `≤` it and at least
`k - ⌊k/2⌋` are `≥` it (for even `k` this is the upper-middle element, not
the mean of the two middle elements).  `aggregate` uses these two
functions for its suggested stop loss and take profit. -/
theorem aggregate_stop_loss_median (rs : List ProviderResponse) (d : String) :
    (aggregate_stop_loss rs d = none ↔ stop_loss_values rs d = []) ∧
    (∀ v, aggregate_stop_loss rs d = some v →
      v ∈ stop_loss_values rs d ∧
      (stop_loss_values rs d).length / 2 + 1
        ≤ (stop_loss_values rs d).countP (fun x => decide (x ≤ v)) ∧
      (stop_loss_values rs d).length - (stop_loss_values rs d).length / 2
        ≤ (stop_loss_values rs d).countP (fun x => decide (v ≤ x))) ∧
    (aggregate_take_profit rs d = none ↔ take_profit_values rs d = []) ∧
    (∀ v, aggregate_take_profit rs d = some v →
      v ∈ take_profit_values rs d ∧
      (take_profit_values rs d).length / 2 + 1
        ≤ (take_profit_values rs d).countP (fun x => decide (x ≤ v)) ∧
      (take_profit_values rs d).length - (take_profit_values rs d).length / 2
        ≤ (take_profit_values rs d).countP (fun x => decide (v ≤ x))) ∧
    (∀ m w c, aggregate m rs w = .ok c →
      c.suggested_stop_loss = aggregate_stop_loss rs c.decision ∧
      c.suggested_take_profit = aggregate_take_profit rs c.decision) := by
  have hmain : ∀ (sup : List ProviderResponse) (g : ProviderResponse → Option ℚ)
      (hsome : ∀ x ∈ sup, (g x).isSome),
      ((if sup.isEmpty then none
        else (sortQ (sup.filterMap g)).get? ((sortQ (sup.filterMap g)).length / 2))
          = none ↔ sup.filterMap g = []) ∧
      (∀ v, (if sup.isEmpty then none
          else (sortQ (sup.filterMap g)).get? ((sortQ (sup.filterMap g)).length / 2))
            = some v →
        v ∈ sup.filterMap g ∧
        (sup.filterMap g).length / 2 + 1
          ≤ (sup.filterMap g).countP (fun x => decide (x ≤ v)) ∧
        (sup.filterMap g).length - (sup.filterMap g).length / 2
          ≤ (sup.filterMap g).countP (fun x => decide (v ≤ x))) := by
    intro sup g hsome
    by_cases hsup : sup.isEmpty
    · rw [List.isEmpty_iff] at hsup
      subst hsup
      simp
    · have hsupne : sup ≠ [] := by simpa [List.isEmpty_iff] using hsup
      have hvalsne : sup.filterMap g ≠ [] := by
        have := filterMap_length_of_isSome g sup hsome
        intro hc
        rw [hc] at this
        exact hsupne (List.length_eq_zero.mp this.symm)
      obtain ⟨v', hget, hmem, hc1, hc2⟩ := median_of_sortQ (sup.filterMap g) hvalsne
      have hlen : (sortQ (sup.filterMap g)).length = (sup.filterMap g).length :=
        (sortQ_perm _).length_eq
      rw [if_neg (by simpa [List.isEmpty_iff] using hsupne)]
      constructor
      · rw [hget]
        simp [hvalsne]
      · intro v hv
        rw [hget] at hv
        injection hv with hv
        subst hv
        exact ⟨hmem, hc1, hc2⟩
  have h1 := hmain (stop_loss_supporters rs d) (fun r => r.suggested_stop_loss)
    (stop_loss_supporters_isSome rs d)
  have h2 := hmain (take_profit_supporters rs d) (fun r => r.suggested_take_profit)
    (take_profit_supporters_isSome rs d)
  refine ⟨h1.1, h1.2, h2.1, h2.2, ?_⟩
  intro m w c h
  have := aggregate_ok_inv m rs w c h
  exact ⟨this.2.2.2.2.2.2.2.1, this.2.2.2.2.2.2.2.2.1⟩

/-- Witness for C5 amended at the spec's example: supporter stop losses
`[100, 102, 999]` aggregate to `102`, a member and upper median of the
values (and not the mean `400.33…`). -/
theorem aggregate_stop_loss_median_witness :
    aggregate_stop_loss
        [{ sampleResponse "a" "BUY" 1 "r1" with suggested_stop_loss := some 100 },
         { sampleResponse "b" "BUY" 1 "r2" with suggested_stop_loss := some 102 },
         { sampleResponse "c" "BUY" 1 "r3" with suggested_stop_loss := some 999 }]
        "BUY" = some 102 ∧
    (102 : ℚ) ∈ stop_loss_values
        [{ sampleResponse "a" "BUY" 1 "r1" with suggested_stop_loss := some 100 },
         { sampleResponse "b" "BUY" 1 "r2" with suggested_stop_loss := some 102 },
         { sampleResponse "c" "BUY" 1 "r3" with suggested_stop_loss := some 999 }]
        "BUY" := by
  have heq : aggregate_stop_loss
      [{ sampleResponse "a" "BUY" 1 "r1" with suggested_stop_loss := some 100 },
       { sampleResponse "b" "BUY" 1 "r2" with suggested_stop_loss := some 102 },
       { sampleResponse "c" "BUY" 1 "r3" with suggested_stop_loss := some 999 }]
      "BUY" = some 102 := by
    norm_num [aggregate_stop_loss, stop_loss_supporters, truthyQ, sortQ,
      List.insertionSort, List.orderedInsert, sampleResponse]
  refine ⟨heq, ?_⟩
  have h := (aggregate_stop_loss_median
    [{ sampleResponse "a" "BUY" 1 "r1" with suggested_stop_loss := some 100 },
     { sampleResponse "b" "BUY" 1 "r2" with suggested_stop_loss := some 102 },
     { sampleResponse "c" "BUY" 1 "r3" with suggested_stop_loss := some 999 }]
    "BUY").2.1 102 heq
  exact h.1

/-! ## C3: unanimity -/

lemma list_sum_nonneg (l : List ℚ) (h : ∀ x ∈ l, 0 ≤ x) : 0 ≤ l.sum := by
  induction l with
  | nil => simp
  | cons a t ih =>
    simp only [List.sum_cons]
    have := h a (by simp)
    have := ih (fun x hx => h x (by simp [hx]))
    linarith

lemma list_sum_le_length (l : List ℚ) (h : ∀ x ∈ l, x ≤ 1) : l.sum ≤ l.length := by
  induction l with
  | nil => simp
  | cons a t ih =>
    simp only [List.sum_cons, List.length_cons]
    have := h a (by simp)
    have := ih (fun x hx => h x (by simp [hx]))
    push_cast
    linarith

lemma list_sum_pos (l : List ℚ) (h : ∀ x ∈ l, 0 ≤ x) (a : ℚ) (ha : a ∈ l)
    (hpos : 0 < a) : 0 < l.sum := by
  induction l with
  | nil => simp at ha
  | cons b t ih =>
    simp only [List.sum_cons]
    have hb := h b (by simp)
    rcases List.mem_cons.mp ha with ha' | ha'
    · have ht := list_sum_nonneg t (fun x hx => h x (by simp [hx]))
      rw [← ha']
      linarith
    · have := ih (fun x hx => h x (by simp [hx])) ha'
      linarith

lemma supporters_eq_self (rs : List ProviderResponse) (d : String)
    (h : ∀ r ∈ rs, r.decision = d) : supporters rs d = rs := by
  unfold supporters
  rw [List.filter_eq_self]
  intro r hr
  simp [h r hr]

lemma supporters_eq_nil (rs : List ProviderResponse) (d d' : String)
    (h : ∀ r ∈ rs, r.decision = d) (hne : d ≠ d') : supporters rs d' = [] := by
  unfold supporters
  rw [List.filter_eq_nil]
  intro r hr
  simp [h r hr, hne]

lemma weighted_mass_unanimous (rs : List ProviderResponse) (d : String)
    (h : ∀ r ∈ rs, r.decision = d) :
    weighted_mass (weightFun none) rs d = (rs.map (fun r => r.confidence)).sum := by
  unfold weighted_mass
  rw [supporters_eq_self rs d h]
  rw [show vote_weight (weightFun none) = (fun r : ProviderResponse => r.confidence)
    from funext (fun r => by simp [vote_weight, weightFun])]

lemma weighted_mass_unanimous_other (rs : List ProviderResponse) (d d' : String)
    (h : ∀ r ∈ rs, r.decision = d) (hne : d ≠ d') :
    weighted_mass (weightFun none) rs d' = 0 := by
  unfold weighted_mass
  rw [supporters_eq_nil rs d d' h hne]
  rfl

lemma sum_map_ones {α : Type _} (l : List α) :
    (l.map (fun _ => (1 : ℚ))).sum = l.length := by
  induction l with
  | nil => simp
  | cons a t ih =>
    simp only [List.map_cons, List.sum_cons, List.length_cons, ih]
    push_cast
    ring

/-- With the default all-ones weights, the consensus confidence of a
unanimous response list is exactly the unweighted average confidence. -/
lemma consensus_confidence_unanimous (rs : List ProviderResponse) (d : String)
    (hne : rs ≠ []) (hall : ∀ r ∈ rs, r.decision = d)
    (hconf : ∀ r ∈ rs, 0 ≤ r.confidence ∧ r.confidence ≤ 1) :
    calculate_consensus_confidence (weightFun none) rs d
      = (rs.map (fun r => r.confidence)).sum / rs.length := by
  have hn : (0 : ℚ) < rs.length := by
    exact_mod_cast List.length_pos.mpr hne
  have hS0 : 0 ≤ (rs.map (fun r => r.confidence)).sum := by
    refine list_sum_nonneg _ ?_
    intro x hx
    obtain ⟨r, hr, rfl⟩ := List.mem_map.mp hx
    exact (hconf r hr).1
  have hS1 : (rs.map (fun r => r.confidence)).sum ≤ (rs.length : ℚ) := by
    have := list_sum_le_length (rs.map (fun r => r.confidence)) ?_
    · simpa using this
    · intro x hx
      obtain ⟨r, hr, rfl⟩ := List.mem_map.mp hx
      exact (hconf r hr).2
  have htw : (rs.map (fun r => weightFun none r.provider_name)).sum
      = (rs.length : ℚ) := by
    rw [show (fun r : ProviderResponse => weightFun none r.provider_name)
      = (fun _ => (1 : ℚ)) from funext (fun r => by simp [weightFun])]
    exact sum_map_ones rs
  have hws : (rs.map (fun r => r.confidence * weightFun none r.provider_name)).sum
      = (rs.map (fun r => r.confidence)).sum := by
    rw [show (fun r : ProviderResponse => r.confidence * weightFun none r.provider_name)
      = (fun r : ProviderResponse => r.confidence)
      from funext (fun r => by simp [weightFun])]
  simp only [calculate_consensus_confidence]
  rw [supporters_eq_self rs d hall]
  rw [if_neg (by simpa [List.isEmpty_iff] using hne)]
  rw [htw, hws, if_pos hn, div_self (ne_of_gt hn)]
  norm_num
  rw [max_eq_right (div_nonneg hS0 (le_of_lt hn)),
    min_eq_right ((div_le_one hn).mpr hS1)]

/-- C3 amended: for a non-empty unanimous response list aggregated with the
default (equal) weights, with confidences in `[0, 1]` and at least one
positive confidence, `aggregate` returns agreement score exactly `1` and a
confidence at least the unweighted average of the input confidences (in
fact equal to it). -/
theorem aggregate_unanimity (m : ℕ) (rs : List ProviderResponse) (d : String)
    (hne : rs ≠ []) (hm : m ≤ rs.length) (hd : validDec d)
    (hall : ∀ r ∈ rs, r.decision = d)
    (hconf : ∀ r ∈ rs, 0 ≤ r.confidence ∧ r.confidence ≤ 1)
    (hpos : ∃ r ∈ rs, 0 < r.confidence) :
    ∃ c, aggregate m rs none = .ok c ∧ c.agreement_score = 1 ∧
      (rs.map (fun r => r.confidence)).sum / rs.length ≤ c.confidence := by
  have hv : ∀ r ∈ rs, validDec r.decision := fun r hr => (hall r hr) ▸ hd
  have hSpos : 0 < (rs.map (fun r => r.confidence)).sum := by
    obtain ⟨r, hr, hrpos⟩ := hpos
    refine list_sum_pos _ ?_ r.confidence (List.mem_map_of_mem _ hr) hrpos
    intro x hx
    obtain ⟨r', hr', rfl⟩ := List.mem_map.mp hx
    exact (hconf r' hr').1
  have hcc := consensus_confidence_unanimous rs d hne hall hconf
  have final : ∀ wv : Votes, calculate_weighted_votes (weightFun none) rs = .ok wv →
      winning_decision wv = d → calculate_agreement_score wv d = 1 →
      ∃ c, aggregate m rs none = .ok c ∧ c.agreement_score = 1 ∧
        (rs.map (fun r => r.confidence)).sum / rs.length ≤ c.confidence := by
    intro wv hcv hwin hsc
    obtain ⟨c, hagg⟩ := aggregate_isOk m rs none wv hne hm hcv
    have inv := aggregate_ok_inv m rs none c hagg
    have hwv : c.weighted_votes = wv := by
      have h1 := inv.2.2.1
      rw [hcv] at h1
      injection h1 with h1
      exact h1.symm
    have hdec : c.decision = d := by
      rw [inv.2.2.2.1, hwv, hwin]
    refine ⟨c, hagg, ?_, ?_⟩
    · rw [inv.2.2.2.2.2.2.2.2.2.1, hwv, hdec, hsc]
    · rw [inv.2.2.2.2.1, hdec, hcc]
  set S := (rs.map (fun r => r.confidence)).sum with hSdef
  rcases hd with h | h | h
  · subst h
    have hcv : calculate_weighted_votes (weightFun none) rs = .ok ⟨S, 0, 0⟩ := by
      rw [calculate_weighted_votes_of_valid _ rs hv,
        weighted_mass_unanimous rs _ hall,
        weighted_mass_unanimous_other rs _ "SELL" hall (by decide),
        weighted_mass_unanimous_other rs _ "HOLD" hall (by decide)]
    have hwin : winning_decision ⟨S, 0, 0⟩ = "BUY" :=
      (winning_decision_spec ⟨S, 0, 0⟩).1 (by simpa using hSpos.le)
        (by simpa using hSpos.le)
    have hsc : calculate_agreement_score ⟨S, 0, 0⟩ "BUY" = 1 := by
      have ht : (⟨S, 0, 0⟩ : Votes).total = S := by simp [Votes.total]
      have hg : (⟨S, 0, 0⟩ : Votes).get "BUY" = S := by simp [Votes.get]
      unfold calculate_agreement_score
      rw [ht, hg, if_neg hSpos.ne', div_self hSpos.ne']
    exact final _ hcv hwin hsc
  · subst h
    have hcv : calculate_weighted_votes (weightFun none) rs = .ok ⟨0, S, 0⟩ := by
      rw [calculate_weighted_votes_of_valid _ rs hv,
        weighted_mass_unanimous rs _ hall,
        weighted_mass_unanimous_other rs _ "BUY" hall (by decide),
        weighted_mass_unanimous_other rs _ "HOLD" hall (by decide)]
    have hwin : winning_decision ⟨0, S, 0⟩ = "SELL" :=
      (winning_decision_spec ⟨0, S, 0⟩).2.1 (by simpa using hSpos)
        (by simpa using hSpos.le)
    have hsc : calculate_agreement_score ⟨0, S, 0⟩ "SELL" = 1 := by
      have ht : (⟨0, S, 0⟩ : Votes).total = S := by simp [Votes.total]
      have hg : (⟨0, S, 0⟩ : Votes).get "SELL" = S := by simp [Votes.get]
      unfold calculate_agreement_score
      rw [ht, hg, if_neg hSpos.ne', div_self hSpos.ne']
    exact final _ hcv hwin hsc
  · subst h
    have hcv : calculate_weighted_votes (weightFun none) rs = .ok ⟨0, 0, S⟩ := by
      rw [calculate_weighted_votes_of_valid _ rs hv,
        weighted_mass_unanimous rs _ hall,
        weighted_mass_unanimous_other rs _ "BUY" hall (by decide),
        weighted_mass_unanimous_other rs _ "SELL" hall (by decide)]
    have hwin : winning_decision ⟨0, 0, S⟩ = "HOLD" :=
      (winning_decision_spec ⟨0, 0, S⟩).2.2 (by simpa using hSpos)
        (by simpa using hSpos)
    have hsc : calculate_agreement_score ⟨0, 0, S⟩ "HOLD" = 1 := by
      have ht : (⟨0, 0, S⟩ : Votes).total = S := by simp [Votes.total]
      have hg : (⟨0, 0, S⟩ : Votes).get "HOLD" = S := by simp [Votes.get]
      unfold calculate_agreement_score
      rw [ht, hg, if_neg hSpos.ne', div_self hSpos.ne']
    exact final _ hcv hwin hsc

/-- C3 counterexample: the claim as stated fails on two counts. A unanimous
single response with confidence `0` yields `agreement_score = 0`, not `1`
(all weighted vote mass is zero, and `_calculate_agreement_score` returns
`0.0` for zero total weight); and with provider weights `\x7ba: 0.1\x7d`
over unanimous confidences `0.9` and `0.1`, the consensus confidence is the
weight-skewed `19/110 ≈ 0.173`, strictly below the unweighted average
`0.5`. -/
theorem aggregate_unanimity_claim_cex :
    ((aggregate 1 [sampleResponse "solo" "BUY" 0 "flat"] none).map
        (fun c => c.agreement_score) = .ok 0 ∧ (0 : ℚ) ≠ 1) ∧
    ((aggregate 1
        [sampleResponse "a" "BUY" (9/10) "strong",
         sampleResponse "b" "BUY" (1/10) "weak"]
        (some (fun n => if n = "a" then 1/10 else 1))).map
        (fun c => c.confidence) = .ok (19/110) ∧
      (19/110 : ℚ) < (9/10 + 1/10) / 2) := by
  refine ⟨⟨?_, by norm_num⟩, ?_, by norm_num⟩
  · norm_num [aggregate, weightFun, calculate_weighted_votes,
      calculate_weighted_votes_loop, add_vote, vote_weight, winning_decision,
      Except.map, calculate_agreement_score, Votes.total, Votes.get,
      sampleResponse]
  · norm_num [aggregate, weightFun, calculate_weighted_votes,
      calculate_weighted_votes_loop, add_vote, vote_weight, winning_decision,
      Except.map, calculate_consensus_confidence, supporters, sampleResponse,
      min_def, max_def]
    try simp
    try norm_num
    try simp
    try norm_num

/-- Witness for C3 amended: two unanimous BUY responses with confidences
`4/5` and `3/5` and default weights reach agreement `1` and confidence at
least their average. -/
theorem aggregate_unanimity_witness :
    ∃ c, aggregate 1
        [sampleResponse "a" "BUY" (4/5) "r1", sampleResponse "b" "BUY" (3/5) "r2"]
        none = .ok c ∧ c.agreement_score = 1 ∧
      (([sampleResponse "a" "BUY" (4/5) "r1",
         sampleResponse "b" "BUY" (3/5) "r2"].map (fun r => r.confidence)).sum
        / ([sampleResponse "a" "BUY" (4/5) "r1",
            sampleResponse "b" "BUY" (3/5) "r2"].length : ℚ)) ≤ c.confidence := by
  refine aggregate_unanimity 1 _ "BUY" (by simp) (by simp) (Or.inl rfl) ?_ ?_ ?_
  · intro r hr
    rcases List.mem_cons.mp hr with h | h
    · rw [h]; rfl
    · rw [List.mem_singleton.mp h]; rfl
  · intro r hr
    rcases List.mem_cons.mp hr with h | h
    · rw [h]; constructor <;> norm_num [sampleResponse]
    · rw [List.mem_singleton.mp h]; constructor <;> norm_num [sampleResponse]
  · exact ⟨sampleResponse "a" "BUY" (4/5) "r1", by simp, by norm_num [sampleResponse]⟩

/-! ## C2: permutation invariance -/

lemma supporters_perm {rs1 rs2 : List ProviderResponse}
    (h : List.Perm rs1 rs2) (d : String) :
    List.Perm (supporters rs1 d) (supporters rs2 d) := h.filter _

lemma weighted_mass_perm (W : String → ℚ) {rs1 rs2 : List ProviderResponse}
    (h : List.Perm rs1 rs2) (d : String) :
    weighted_mass W rs1 d = weighted_mass W rs2 d :=
  ((supporters_perm h d).map _).sum_eq

lemma calculate_weighted_votes_perm (W : String → ℚ)
    {rs1 rs2 : List ProviderResponse} (hperm : List.Perm rs1 rs2) (wv : Votes)
    (h1 : calculate_weighted_votes W rs1 = .ok wv) :
    calculate_weighted_votes W rs2 = .ok wv := by
  have hv1 := loop_valid_of_ok W rs1 ⟨0, 0, 0⟩ wv h1
  have hv2 : ∀ r ∈ rs2, validDec r.decision :=
    fun r hr => hv1 r (hperm.mem_iff.mpr hr)
  rw [calculate_weighted_votes_of_valid W rs1 hv1] at h1
  rw [calculate_weighted_votes_of_valid W rs2 hv2]
  injection h1 with h1
  rw [← h1, ← weighted_mass_perm W hperm "BUY", ← weighted_mass_perm W hperm "SELL",
    ← weighted_mass_perm W hperm "HOLD"]

lemma isEmpty_eq_of_perm {α : Type _} {l1 l2 : List α} (h : List.Perm l1 l2) :
    l1.isEmpty = l2.isEmpty := by
  have hl := h.length_eq
  cases l1 <;> cases l2 <;> simp_all

lemma consensus_confidence_perm (W : String → ℚ)
    {rs1 rs2 : List ProviderResponse} (hperm : List.Perm rs1 rs2) (d : String) :
    calculate_consensus_confidence W rs1 d
      = calculate_consensus_confidence W rs2 d := by
  have hsup := supporters_perm hperm d
  have hemp := isEmpty_eq_of_perm hsup
  have hlen : (supporters rs1 d).length = (supporters rs2 d).length :=
    hsup.length_eq
  have hlen2 : rs1.length = rs2.length := hperm.length_eq
  have hsum1 : ((supporters rs1 d).map (fun r => W r.provider_name)).sum
      = ((supporters rs2 d).map (fun r => W r.provider_name)).sum :=
    (hsup.map _).sum_eq
  have hsum2 : ((supporters rs1 d).map (fun r => r.confidence * W r.provider_name)).sum
      = ((supporters rs2 d).map (fun r => r.confidence * W r.provider_name)).sum :=
    (hsup.map _).sum_eq
  simp only [calculate_consensus_confidence]
  rw [hemp, hlen, hlen2, hsum1, hsum2]

lemma sortQ_eq_of_perm {l1 l2 : List ℚ} (h : List.Perm l1 l2) :
    sortQ l1 = sortQ l2 :=
  List.eq_of_perm_of_sorted ((sortQ_perm l1).trans (h.trans (sortQ_perm l2).symm))
    (sortQ_sorted l1) (sortQ_sorted l2)

lemma aggregate_stop_loss_perm {rs1 rs2 : List ProviderResponse}
    (hperm : List.Perm rs1 rs2) (d : String) :
    aggregate_stop_loss rs1 d = aggregate_stop_loss rs2 d := by
  have hsup : List.Perm (stop_loss_supporters rs1 d) (stop_loss_supporters rs2 d) :=
    hperm.filter _
  have hemp := isEmpty_eq_of_perm hsup
  have hvals := hsup.filterMap (fun r => r.suggested_stop_loss)
  simp only [aggregate_stop_loss]
  rw [hemp, sortQ_eq_of_perm hvals]

lemma aggregate_take_profit_perm {rs1 rs2 : List ProviderResponse}
    (hperm : List.Perm rs1 rs2) (d : String) :
    aggregate_take_profit rs1 d = aggregate_take_profit rs2 d := by
  have hsup : List.Perm (take_profit_supporters rs1 d) (take_profit_supporters rs2 d) :=
    hperm.filter _
  have hemp := isEmpty_eq_of_perm hsup
  have hvals := hsup.filterMap (fun r => r.suggested_take_profit)
  simp only [aggregate_take_profit]
  rw [hemp, sortQ_eq_of_perm hvals]

lemma count_votes_perm {rs1 rs2 : List ProviderResponse}
    (hperm : List.Perm rs1 rs2) : count_votes rs1 = count_votes rs2 :=
  funext fun d => hperm.countP_eq _

lemma total_latency_perm {rs1 rs2 : List ProviderResponse}
    (hperm : List.Perm rs1 rs2) : total_latency rs1 = total_latency rs2 :=
  ((hperm.filter _).filterMap _).sum_eq

lemma total_cost_perm {rs1 rs2 : List ProviderResponse}
    (hperm : List.Perm rs1 rs2) : total_cost rs1 = total_cost rs2 :=
  ((hperm.filter _).filterMap _).sum_eq

lemma total_tokens_perm {rs1 rs2 : List ProviderResponse}
    (hperm : List.Perm rs1 rs2) : total_tokens rs1 = total_tokens rs2 :=
  ((hperm.filter _).filterMap _).sum_eq

lemma aggregate_ok_of_perm (m : ℕ) (w : Option (String → ℚ))
    {rs1 rs2 : List ProviderResponse} (hperm : List.Perm rs1 rs2)
    (c1 : ConsensusResult) (h1 : aggregate m rs1 w = .ok c1) :
    ∃ c2, aggregate m rs2 w = .ok c2 := by
  have inv := aggregate_ok_inv m rs1 w c1 h1
  refine aggregate_isOk m rs2 w c1.weighted_votes ?_ ?_ ?_
  · intro hc
    apply inv.1
    have := hperm.length_eq
    rw [hc] at this
    exact List.length_eq_zero.mp this
  · rw [← hperm.length_eq]
    exact inv.2.1
  · exact calculate_weighted_votes_perm _ hperm _ inv.2.2.1

/-- C2 amended: for permuted response lists (same weights, same
`min_providers`) `aggregate` succeeds on one iff it succeeds on the other,
and the two results agree on every field except the aggregated `reasoning`
and `risk_level` — which are chosen from supporters (respectively present
risk labels) by a first-maximum rule and can differ between orders when two
candidates tie — and the echoed `provider_responses` list and wall-clock
timestamp; the echoed lists are permutations of each other. -/
theorem aggregate_perm_invariant (m : ℕ) (w : Option (String → ℚ))
    (rs1 rs2 : List ProviderResponse) (hperm : List.Perm rs1 rs2) :
    ((aggregate m rs1 w).isOk = (aggregate m rs2 w).isOk) ∧
    (∀ c1 c2, aggregate m rs1 w = .ok c1 → aggregate m rs2 w = .ok c2 →
      c1.decision = c2.decision ∧
      c1.confidence = c2.confidence ∧
      c1.weighted_confidence = c2.weighted_confidence ∧
      c1.agreement_score = c2.agreement_score ∧
      c1.weighted_votes = c2.weighted_votes ∧
      c1.vote_breakdown = c2.vote_breakdown ∧
      c1.suggested_stop_loss = c2.suggested_stop_loss ∧
      c1.suggested_take_profit = c2.suggested_take_profit ∧
      c1.total_providers = c2.total_providers ∧
      c1.participating_providers = c2.participating_providers ∧
      c1.total_latency_ms = c2.total_latency_ms ∧
      c1.total_cost_usd = c2.total_cost_usd ∧
      c1.total_tokens = c2.total_tokens ∧
      List.Perm c1.provider_responses c2.provider_responses) := by
  constructor
  · rcases h1 : aggregate m rs1 w with e1 | c1
    · rcases h2 : aggregate m rs2 w with e2 | c2
      · rfl
      · obtain ⟨c1', h1'⟩ := aggregate_ok_of_perm m w hperm.symm c2 h2
        rw [h1'] at h1
        exact Except.noConfusion h1
    · obtain ⟨c2, h2⟩ := aggregate_ok_of_perm m w hperm c1 h1
      rw [h2]
      rfl
  · intro c1 c2 h1 h2
    obtain ⟨hne1, hm1, hcv1, hdec1, hconf1, hreas1, hrisk1, hsl1, htp1, hagr1,
      hwc1, htot1, hpart1, hpr1, hvb1, hlat1, hcost1, htok1⟩ :=
      aggregate_ok_inv m rs1 w c1 h1
    obtain ⟨hne2, hm2, hcv2, hdec2, hconf2, hreas2, hrisk2, hsl2, htp2, hagr2,
      hwc2, htot2, hpart2, hpr2, hvb2, hlat2, hcost2, htok2⟩ :=
      aggregate_ok_inv m rs2 w c2 h2
    have hwv : c1.weighted_votes = c2.weighted_votes := by
      have hx := calculate_weighted_votes_perm _ hperm _ hcv1
      rw [hcv2] at hx
      injection hx with hx
      exact hx.symm
    have hdec : c1.decision = c2.decision := by
      rw [hdec1, hdec2, hwv]
    have hconf : c1.confidence = c2.confidence := by
      rw [hconf1, hconf2, ← hdec, consensus_confidence_perm _ hperm]
    refine ⟨hdec, hconf, ?_, ?_, hwv, ?_, ?_, ?_, ?_, ?_, ?_, ?_, ?_, ?_⟩
    · rw [hwc1, hwc2, hconf]
    · rw [hagr1, hagr2, hwv, hdec]
    · rw [hvb1, hvb2, count_votes_perm hperm]
    · rw [hsl1, hsl2, ← hdec, aggregate_stop_loss_perm hperm]
    · rw [htp1, htp2, ← hdec, aggregate_take_profit_perm hperm]
    · rw [htot1, htot2, hperm.length_eq]
    · rw [hpart1, hpart2, hperm.length_eq]
    · rw [hlat1, hlat2, total_latency_perm hperm]
    · rw [hcost1, hcost2, total_cost_perm hperm]
    · rw [htok1, htok2, total_tokens_perm hperm]
    · rw [hpr1, hpr2]
      exact hperm

/-- C2 counterexample: two BUY responses with equal confidence but
different reasoning texts and differently-cased risk labels.  Swapping the
input order changes the output: the reasoning quotes the first
max-confidence supporter and the risk level keeps the first max-priority
label, so `aggregate` is not permutation invariant as claimed. -/
theorem aggregate_perm_claim_cex :
    (aggregate 1
        [{ sampleResponse "a" "BUY" 1 "alpha thesis" with risk_level := some "low" },
         { sampleResponse "b" "BUY" 1 "beta thesis" with risk_level := some "LOW" }]
        none
      ≠ aggregate 1
        [{ sampleResponse "b" "BUY" 1 "beta thesis" with risk_level := some "LOW" },
         { sampleResponse "a" "BUY" 1 "alpha thesis" with risk_level := some "low" }]
        none) ∧
    (aggregate 1
        [{ sampleResponse "a" "BUY" 1 "alpha thesis" with risk_level := some "low" },
         { sampleResponse "b" "BUY" 1 "beta thesis" with risk_level := some "LOW" }]
        none).map (fun c => c.risk_level) = .ok "low" ∧
    (aggregate 1
        [{ sampleResponse "b" "BUY" 1 "beta thesis" with risk_level := some "LOW" },
         { sampleResponse "a" "BUY" 1 "alpha thesis" with risk_level := some "low" }]
        none).map (fun c => c.risk_level) = .ok "LOW" := by
  have h1 : (aggregate 1
      [{ sampleResponse "a" "BUY" 1 "alpha thesis" with risk_level := some "low" },
       { sampleResponse "b" "BUY" 1 "beta thesis" with risk_level := some "LOW" }]
      none).map (fun c => c.reasoning)
      = .ok "Consensus (2/2 providers agree): alpha thesis" := by
    norm_num [aggregate, weightFun, calculate_weighted_votes,
      calculate_weighted_votes_loop, add_vote, vote_weight, winning_decision,
      Except.map, aggregate_reasoning, supporters, firstMaxBy, sampleResponse]
    try decide
  have h2 : (aggregate 1
      [{ sampleResponse "b" "BUY" 1 "beta thesis" with risk_level := some "LOW" },
       { sampleResponse "a" "BUY" 1 "alpha thesis" with risk_level := some "low" }]
      none).map (fun c => c.reasoning)
      = .ok "Consensus (2/2 providers agree): beta thesis" := by
    norm_num [aggregate, weightFun, calculate_weighted_votes,
      calculate_weighted_votes_loop, add_vote, vote_weight, winning_decision,
      Except.map, aggregate_reasoning, supporters, firstMaxBy, sampleResponse]
    try decide
  refine ⟨?_, ?_, ?_⟩
  · intro h
    rw [h] at h1
    have hx := h2.symm.trans h1
    injection hx with hx
    exact absurd hx (by decide)
  · norm_num [aggregate, weightFun, calculate_weighted_votes,
      calculate_weighted_votes_loop, add_vote, vote_weight, winning_decision,
      Except.map, aggregate_risk_level, present_risk_levels, firstMaxBy,
      risk_priority, lowerStr, lowerChar, sampleResponse]
    try decide
  · norm_num [aggregate, weightFun, calculate_weighted_votes,
      calculate_weighted_votes_loop, add_vote, vote_weight, winning_decision,
      Except.map, aggregate_risk_level, present_risk_levels, firstMaxBy,
      risk_priority, lowerStr, lowerChar, sampleResponse]
    try decide

/-- Witness for C2 amended at a concrete swap of two responses. -/
theorem aggregate_perm_invariant_witness :
    (aggregate 1 [sampleResponse "a" "BUY" (4/5) "r1",
        sampleResponse "b" "SELL" (3/5) "r2"] none).isOk
      = (aggregate 1 [sampleResponse "b" "SELL" (3/5) "r2",
          sampleResponse "a" "BUY" (4/5) "r1"] none).isOk :=
  (aggregate_perm_invariant 1 none _ _
    (List.Perm.swap (sampleResponse "b" "SELL" (3/5) "r2")
      (sampleResponse "a" "BUY" (4/5) "r1") [])).1
